import Mathlib

/-!
# Student Record Store — formal model and verification

A shallow embedding of the student store of the seminary-management
repository (`src/student.py`): the `Student` pydantic model with its field
validators, and the `StudentManager` operations (load, save, CRUD, search,
id generation) as pure functions over an explicit collection state.

Machine-level conventions of the source that the model reproduces:

* `datetime.strptime(v, "%d/%m/%Y")` — CPython compiles the format to
  the anchored regex
  `(3[0-1]|[1-2]\d|0[1-9]|[1-9]| [1-9])/(1[0-2]|0[1-9]|[1-9])/(\d\d\d\d)`
  (full match; the day field's last alternative is a space-padded
  single digit, kept by CPython for ANSI C `%c` compatibility, with no
  such alternative for the month) and then builds a `datetime`, which
  additionally requires the day to exist in the month and the year to
  be at least 1.  Since none of the alternatives can contain `/`, a
  match decomposes uniquely along the `/` separators, which is how the
  model parses.
* Python `int(s)` — strips surrounding whitespace, accepts one optional
  sign, and digits with single underscores between digits.
* Python `str.lower` is modelled on the ASCII range (`Char.toLower`).
  `str.upper` is modelled per character with ASCII letters upper-cased
  and the length-expanding special casing `'ß'` → `"SS"`; other Unicode
  case mappings are modelled as identity.
* Python `x in s` on strings is substring containment.
-/

/-! ## Python string primitives -/

/-- Whitespace characters stripped by Python `str.strip()` (ASCII range). -/
def isPySpace (c : Char) : Bool :=
  c = ' ' || c = '\t' || c = '\n' || c = '\r' || c = '\x0b' || c = '\x0c'

/-- `str.strip()` on a character list: drop whitespace from both ends. -/
def pyStripChars (l : List Char) : List Char :=
  ((l.dropWhile isPySpace).reverse.dropWhile isPySpace).reverse

/-- Python `s.strip()`. -/
def pyStrip (s : String) : String :=
  String.mk (pyStripChars s.toList)

/-- Python `s.lower()` (ASCII model). -/
def pyLower (s : String) : String :=
  String.mk (s.toList.map Char.toLower)

/-- Python upper-casing of a single character, as a character list:
`'ß'` expands to `"SS"` (the length-changing special casing exercised
below); ASCII letters map through `Char.toUpper`; other characters are
modelled as unchanged. -/
def charUpper (c : Char) : List Char :=
  if c = 'ß' then ['S', 'S'] else [Char.toUpper c]

/-- Python `s.upper()`: concatenation of the per-character upper-case
expansions — not length-preserving (`"ß".upper() = "SS"`). -/
def pyUpper (s : String) : String :=
  String.mk (s.toList.flatMap charUpper)

/-- Does `pat` occur at the head of `l`? -/
def leadMatch : List Char → List Char → Bool
  | [], _ => true
  | _ :: _, [] => false
  | a :: as, b :: bs => a = b && leadMatch as bs

/-- Does `pat` occur somewhere in `l`?  (Python `pat in l` on strings;
the empty pattern occurs in every string.) -/
def subMatch (pat : List Char) : List Char → Bool
  | [] => leadMatch pat []
  | b :: bs => leadMatch pat (b :: bs) || subMatch pat bs

/-- Python `needle in haystack` for strings. -/
def pyIn (needle haystack : String) : Bool :=
  subMatch needle.toList haystack.toList

/-- Python `s.startswith("SV")`. -/
def startsWithSV : List Char → Bool
  | c :: c' :: _ => c = 'S' && c' = 'V'
  | _ => false

/-! ## Decimal digits, Python `int()`, and `%03d` formatting -/

/-- Numeric value of a decimal digit character. -/
def digitVal (c : Char) : Nat := c.toNat - 48

/-- Value of a list of decimal digit characters, most significant first. -/
def digitsToNat (l : List Char) : Nat :=
  l.foldl (fun a c => a * 10 + digitVal c) 0

/-- The digit grammar of Python `int()`: a nonempty digit string in which
a single underscore may appear between two digits. -/
def intDigitsOk : List Char → Bool
  | [] => false
  | [c] => c.isDigit
  | c :: c' :: rest =>
      if c' = '_' then c.isDigit && intDigitsOk rest
      else c.isDigit && intDigitsOk (c' :: rest)

/-- Parse an unsigned digit group as Python `int()` does (underscores
between digits are ignored). -/
def parseUDigits (l : List Char) : Option Nat :=
  if intDigitsOk l then some (digitsToNat (l.filter (fun c => c ≠ '_'))) else none

/-- Python `int(s)`: strip surrounding whitespace, optional single sign,
then a digit group.  `none` models `ValueError`. -/
def pyInt? (s : String) : Option Int :=
  match pyStripChars s.toList with
  | [] => none
  | c :: rest =>
    if c = '+' then (parseUDigits rest).map Int.ofNat
    else if c = '-' then (parseUDigits rest).map (fun n => -(n : Int))
    else (parseUDigits (c :: rest)).map Int.ofNat

/-- The decimal digit character for `n < 10`. -/
def digitChar : Nat → Char
  | 0 => '0' | 1 => '1' | 2 => '2' | 3 => '3' | 4 => '4'
  | 5 => '5' | 6 => '6' | 7 => '7' | 8 => '8' | _ => '9'

/-- Decimal representation of a natural number, fuel-indexed so that it
reduces definitionally. -/
def natDecimalAux : Nat → Nat → List Char
  | 0, _ => []
  | fuel + 1, n =>
    if n < 10 then [digitChar n]
    else natDecimalAux fuel (n / 10) ++ [digitChar (n % 10)]

/-- Decimal representation of a natural number, most significant first. -/
def natDecimal (n : Nat) : List Char :=
  natDecimalAux (n + 1) n

/-- Python `f"{v:03d}"`: decimal representation zero-padded to total
width 3 (the sign, when present, counts toward the width). -/
def fmt03d (v : Int) : String :=
  let mag := natDecimal v.natAbs
  let width := if v < 0 then 2 else 3
  let padded := List.replicate (width - mag.length) '0' ++ mag
  String.mk ((if v < 0 then ['-'] else []) ++ padded)

/-! ## The Student model (`class Student(BaseModel)`) -/

/-- A constructed `Student` value: the six string fields of the pydantic
model. -/
structure Student where
  id : String
  name : String
  birth_date : String
  hometown : String
  parish : String
  diocese : String
deriving DecidableEq, Repr

/-- The raw field set fed to pydantic construction / `model_validate`
(`from_dict`), before validation. -/
structure StudentFields where
  id : String
  name : String
  birth_date : String
  hometown : String
  parish : String
  diocese : String
deriving DecidableEq, Repr

/-- Is `y` a Gregorian leap year (as Python `datetime` decides it)? -/
def isLeapYear (y : Nat) : Bool :=
  y % 4 = 0 && (y % 100 ≠ 0 || y % 400 = 0)

/-- Number of days of month `m` in year `y` (Python `datetime`). -/
def daysInMonth (m y : Nat) : Nat :=
  if m = 2 then (if isLeapYear y then 29 else 28)
  else if m = 4 || m = 6 || m = 9 || m = 11 then 30
  else 31

/-- Split a character list at every occurrence of `sep`
(Python `str.split(sep)` semantics: `[[]]` on the empty list). -/
def splitOnChar (sep : Char) (l : List Char) : List (List Char) :=
  l.foldr
    (fun c acc =>
      match acc with
      | [] => [[c]]
      | a :: as => if c = sep then [] :: a :: as else (c :: a) :: as)
    [[]]

/-- The `%d` field of the strptime format: the regex
`3[0-1]|[1-2]\d|0[1-9]|[1-9]| [1-9]` as a whole-group match, returning
the value; the final alternative is CPython's space-padded single-digit
day (kept for ANSI C `%c` compatibility). -/
def matchPercentD (l : List Char) : Option Nat :=
  match l with
  | [c] => if c.isDigit && c ≠ '0' then some (digitVal c) else none
  | [c₁, c₂] =>
    if c₁ = ' ' then
      (if c₂.isDigit && c₂ ≠ '0' then some (digitVal c₂) else none)
    else if c₁.isDigit && c₂.isDigit then
      let v := 10 * digitVal c₁ + digitVal c₂
      if 1 ≤ v ∧ v ≤ 31 then some v else none
    else none
  | _ => none

/-- The `%m` field of the strptime format: the regex
`1[0-2]|0[1-9]|[1-9]` as a whole-group match, returning the value. -/
def matchPercentM (l : List Char) : Option Nat :=
  match l with
  | [c] => if c.isDigit && c ≠ '0' then some (digitVal c) else none
  | [c₁, c₂] =>
    if c₁.isDigit && c₂.isDigit then
      let v := 10 * digitVal c₁ + digitVal c₂
      if 1 ≤ v ∧ v ≤ 12 then some v else none
    else none
  | _ => none

/-- The `%Y` field of the strptime format: exactly four decimal digits. -/
def matchPercentY (l : List Char) : Option Nat :=
  if l.length = 4 && l.all Char.isDigit then some (digitsToNat l) else none

/-- `datetime.strptime(s, "%d/%m/%Y")` up to and including the `datetime`
construction: `some (d, m, y)` on success, `none` for `ValueError`.
The format's regex pieces contain no `/`, so the anchored full match
decomposes uniquely along the `/` separators; `datetime` additionally
requires `1 ≤ y` (`MINYEAR`) and the day to exist in the month. -/
def strptime_dmY (s : String) : Option (Nat × Nat × Nat) :=
  match splitOnChar '/' s.toList with
  | [ds, ms, ys] =>
    match matchPercentD ds, matchPercentM ms, matchPercentY ys with
    | some d, some m, some y =>
      if 1 ≤ y ∧ d ≤ daysInMonth m y then some (d, m, y) else none
    | _, _, _ => none
  | _ => none

/-- `Student.validate_birth_date`: accept exactly the strings on which
`datetime.strptime(v, "%d/%m/%Y")` succeeds. -/
def validate_birth_date (v : String) : Bool :=
  (strptime_dmY v).isSome

/-- `Student.validate_student_id`: requires the `"SV"` prefix (original
case) and length at least 3, and returns the upper-cased id. -/
def validate_student_id (v : String) : Option String :=
  if startsWithSV v.toList then
    if 3 ≤ v.length then some (pyUpper v) else none
  else none

/-- Pydantic construction of a `Student` (`Student(...)` /
`model_validate`): every `Field` length constraint must hold and both
field validators must pass; the stored id is the validator's upper-cased
value.  `none` models `ValidationError`. -/
def Student.construct (f : StudentFields) : Option Student :=
  if 1 ≤ f.id.length ∧ f.id.length ≤ 10
      ∧ 1 ≤ f.name.length ∧ f.name.length ≤ 100
      ∧ 1 ≤ f.hometown.length ∧ f.hometown.length ≤ 100
      ∧ 1 ≤ f.parish.length ∧ f.parish.length ≤ 100
      ∧ 1 ≤ f.diocese.length ∧ f.diocese.length ≤ 100 then
    match validate_student_id f.id with
    | some uid =>
      if validate_birth_date f.birth_date then
        some ⟨uid, f.name, f.birth_date, f.hometown, f.parish, f.diocese⟩
      else none
    | none => none
  else none

/-- `Student.to_dict` (`model_dump`): the six fields as a mapping. -/
def Student.to_dict (st : Student) : StudentFields :=
  ⟨st.id, st.name, st.birth_date, st.hometown, st.parish, st.diocese⟩

/-- `Student.from_dict` (`model_validate`): identical validation to
construction. -/
def Student.from_dict (f : StudentFields) : Option Student :=
  Student.construct f

/-! ## The StudentManager collection operations -/

/-- The Qt signals a `StudentManager` mutation emits, in emission order. -/
inductive Event where
  | student_added (id : String)
  | student_updated (id : String)
  | student_deleted (id : String)
  | students_changed
deriving DecidableEq, Repr

/-- `StudentManager.get_all_students`: a snapshot copy of the collection
(`self.students.copy()`), which as a value equals the collection. -/
def get_all_students (students : List Student) : List Student :=
  students

/-- `StudentManager.get_student_by_id`: first entry with the given id. -/
def get_student_by_id (students : List Student) (student_id : String) :
    Option Student :=
  students.find? (fun st => st.id = student_id)

/-- `StudentManager.add_student`.  `_saveOk` is the outcome of the
`save_data()` call on the success path; the source discards that return
value, so nothing in the result depends on it.  Returns
(return value, resulting collection, emitted signals). -/
def add_student (_saveOk : Bool) (students : List Student)
    (student : Student) : Bool × List Student × List Event :=
  if (get_student_by_id students student.id).isSome then
    (false, students, [])
  else
    (true, students ++ [student],
      [Event.student_added student.id, Event.students_changed])

/-- Replace the first entry whose id is `student_id` (the indexed loop of
`update_student`); `none` when no entry matches. -/
def replaceFirst (students : List Student) (student_id : String)
    (nst : Student) : Option (List Student) :=
  match students with
  | [] => none
  | st :: rest =>
    if st.id = student_id then some (nst :: rest)
    else (replaceFirst rest student_id nst).map (fun r => st :: r)

/-- `StudentManager.update_student`: replaces the first entry matching
`student_id` in place; the result of `save_data()` (`_saveOk`) is
discarded by the source. -/
def update_student (_saveOk : Bool) (students : List Student)
    (student_id : String) (updated_student : Student) :
    Bool × List Student × List Event :=
  match replaceFirst students student_id updated_student with
  | some s' =>
    (true, s', [Event.student_updated student_id, Event.students_changed])
  | none => (false, students, [])

/-- Remove the first entry whose id is `student_id` (the indexed loop of
`delete_student` with `pop`); `none` when no entry matches. -/
def removeFirst (students : List Student) (student_id : String) :
    Option (List Student) :=
  match students with
  | [] => none
  | st :: rest =>
    if st.id = student_id then some rest
    else (removeFirst rest student_id).map (fun r => st :: r)

/-- `StudentManager.delete_student`; the result of `save_data()`
(`_saveOk`) is discarded by the source. -/
def delete_student (_saveOk : Bool) (students : List Student)
    (student_id : String) : Bool × List Student × List Event :=
  match removeFirst students student_id with
  | some s' =>
    (true, s', [Event.student_deleted student_id, Event.students_changed])
  | none => (false, students, [])

/-- `StudentManager.search_students`: on an empty/whitespace query return
`get_all_students`; otherwise lower-case and strip the query and collect,
in collection order, the students with the query as a substring of the
lower-cased id, name, hometown, parish, or diocese. -/
def search_students (query : String) (students : List Student) :
    List Student :=
  if pyStrip query = "" then get_all_students students
  else
    let q := pyStrip (pyLower query)
    students.foldl
      (fun results st =>
        if pyIn q (pyLower st.id) || pyIn q (pyLower st.name)
            || pyIn q (pyLower st.hometown) || pyIn q (pyLower st.parish)
            || pyIn q (pyLower st.diocese)
        then results ++ [st] else results)
      []

/-- The contribution of one student to `generate_next_id`'s running
maximum: `int(student.id[2:])` when the id starts with `"SV"` and the
suffix parses, otherwise no contribution. -/
def suffixInt? (st : Student) : Option Int :=
  if startsWithSV st.id.toList then pyInt? (String.mk (st.id.toList.drop 2))
  else none

/-- One iteration of the `generate_next_id` loop:
`max_num = max(max_num, num)` on a successful parse. -/
def nextIdStep (acc : Int) (st : Student) : Int :=
  match suffixInt? st with
  | some num => max acc num
  | none => acc

/-- `StudentManager.generate_next_id`: `"SV001"` on an empty collection,
otherwise `"SV"` followed by the running maximum plus one formatted with
`%03d` (the maximum starts at 0). -/
def generate_next_id (students : List Student) : String :=
  if students.isEmpty then "SV001"
  else "SV" ++ fmt03d (students.foldl nextIdStep 0 + 1)

/-- The literal seed collection of `create_sample_data`. -/
def sample_students : List Student :=
  [⟨"SV001", "Nguyễn Văn An", "15/03/1995", "Hà Nội", "Gx Thánh Giuse", "Gp Hà Nội"⟩,
   ⟨"SV002", "Trần Thành Bình", "22/07/1996", "TP.HCM", "Gx Đức Bà", "Gp TP.HCM"⟩,
   ⟨"SV003", "Lê Minh Cường", "08/11/1994", "Đà Nẵng", "Gx Chính Tòa", "Gp Đà Nẵng"⟩,
   ⟨"SV004", "Phạm Quang Dũng", "03/12/1997", "Hải Phòng", "Gx Thánh Tâm", "Gp Hải Phòng"⟩,
   ⟨"SV005", "Hoàng Văn Em", "28/05/1995", "Huế", "Gx Phú Cam", "Gp Huế"⟩,
   ⟨"SV006", "Vũ Thành Phúc", "14/09/1996", "Nam Định", "Gx Thánh Phêrô", "Gp Bùi Chu"⟩,
   ⟨"SV007", "Đặng Minh Quang", "07/01/1998", "Nghệ An", "Gx Kim Liên", "Gp Vinh"⟩,
   ⟨"SV008", "Bùi Văn Hùng", "19/04/1995", "Thái Bình", "Gx Kẻ Sặt", "Gp Hải Phòng"⟩,
   ⟨"SV009", "Đinh Công Minh", "26/10/1997", "Quảng Ninh", "Gx Cửa Ông", "Gp Hà Nội"⟩,
   ⟨"SV010", "Ngô Thành Nam", "12/06/1996", "Cần Thơ", "Gx Chính Tòa", "Gp Cần Thơ"⟩]

/-! ## The backing JSON document and `load_data` -/

/-- A parsed JSON value (the result of `json.load`). -/
inductive JVal where
  | jnull
  | jbool (b : Bool)
  | jnum (n : Int)
  | jstr (s : String)
  | jarr (l : List JVal)
  | jobj (fields : List (String × JVal))

/-- Python `dict` lookup on a parsed JSON object: the last binding of the
key wins (`json.load` keeps the last duplicate key). -/
def lookupLast (key : String) : List (String × JVal) → Option JVal
  | [] => none
  | kv :: rest =>
    match lookupLast key rest with
    | some v => some v
    | none => if kv.1 = key then some kv.2 else none

/-- `data.get(key, default)`: only defined on a JSON object (on any other
value the attribute access raises, modelled by `none`). -/
def dictGet (j : JVal) (key : String) (default : JVal) : Option JVal :=
  match j with
  | .jobj fields => some ((lookupLast key fields).getD default)
  | _ => none

/-- Python iteration over a JSON value (the `for student_data in ...`
comprehension): lists yield elements, strings yield one-character
strings, dicts yield their keys; other values raise `TypeError`
(modelled by `none`). -/
def pyIter : JVal → Option (List JVal)
  | .jarr l => some l
  | .jstr s => some (s.toList.map (fun c => .jstr (String.mk [c])))
  | .jobj fields => some (fields.map (fun kv => .jstr kv.1))
  | _ => none

/-- `Student.from_dict` on a parsed JSON value: pydantic `model_validate`
requires a mapping with exactly the six model fields (extra keys are
forbidden), each a string, and runs the same validation as construction. -/
def Student.from_dictJ (j : JVal) : Option Student :=
  match j with
  | .jobj fields =>
    let allowed := ["id", "name", "birth_date", "hometown", "parish", "diocese"]
    let getStr := fun k =>
      match lookupLast k fields with
      | some (.jstr s) => some s
      | _ => none
    if fields.all (fun kv => allowed.contains kv.1) then
      match getStr "id", getStr "name", getStr "birth_date",
          getStr "hometown", getStr "parish", getStr "diocese" with
      | some i, some n, some b, some h, some p, some d =>
        Student.construct ⟨i, n, b, h, p, d⟩
      | _, _, _, _, _, _ => none
    else none
  | _ => none

/-- What `load_data` finds on disk. -/
inductive LoadInput where
  | missingFile                      -- `os.path.exists` is false
  | readError                        -- `open`/read raises
  | parseError                       -- `json.load` raises
  | parsed (j : JVal)                -- `json.load` succeeds with `j`

/-- `StudentManager.load_data`: returns (return value, collection).
A missing file and every raised exception fall back to
`create_sample_data`; otherwise the collection is rebuilt from
`data.get("students", [])`. -/
def load_data : LoadInput → Bool × List Student
  | .missingFile => (true, sample_students)
  | .readError => (false, sample_students)
  | .parseError => (false, sample_students)
  | .parsed j =>
    match dictGet j "students" (.jarr []) with
    | none => (false, sample_students)
    | some sv =>
      match pyIter sv with
      | none => (false, sample_students)
      | some recs =>
        match recs.mapM Student.from_dictJ with
        | some studs => (true, studs)
        | none => (false, sample_students)

/-! ## Spec-side definitions

Definitions in this section follow the wording of the specification's
claims (not the source); theorems below compare them with the embedded
code. -/

/-- No two students of the collection share an id. -/
def uniqueIds (students : List Student) : Prop :=
  (students.map Student.id).Nodup

instance (students : List Student) : Decidable (uniqueIds students) := by
  unfold uniqueIds; infer_instance

/-- Did `load_data` find no file on disk? -/
def isMissingFile : LoadInput → Bool
  | .missingFile => true
  | _ => false

/-- Spec-side reading of the backing document: defined exactly when the
document parses as a JSON object whose `students` entry (defaulting to
an empty array when the key is absent) iterates into records that all
validate. -/
def docStudents? : LoadInput → Option (List Student)
  | .parsed (.jobj fields) =>
    (match lookupLast "students" fields with
     | none => some []
     | some v => (pyIter v).bind (fun recs => recs.mapM Student.from_dictJ))
  | _ => none

/-- The claim's id-generation rule: the maximum numeric suffix among ids
consisting of `"SV"` followed by decimal digits (other ids ignored),
plus one, zero-padded to 3 digits; `"SV001"` when the collection is
empty or no id matches the pattern. -/
def claimNextId (students : List Student) : String :=
  let nums := students.filterMap (fun st =>
    match st.id.toList with
    | 'S' :: 'V' :: rest =>
      if rest ≠ [] ∧ rest.all Char.isDigit = true
      then some (digitsToNat rest) else none
    | _ => none)
  if nums = [] then "SV001"
  else "SV" ++ fmt03d ((nums.foldl max 0 : Nat) + 1)

/-- The five fields the claim says `search` matches against. -/
def fieldsOf (st : Student) : List String :=
  [st.id, st.name, st.hometown, st.parish, st.diocese]

/-- Case-insensitive occurrence of `q` in one of a student's five
searchable fields. -/
def matchesQuery (q : String) (st : Student) : Bool :=
  (fieldsOf st).any (fun f => pyIn q (pyLower f))

/-- The claim's search semantics: `get_all` on an empty or
whitespace-only query, otherwise the students in whose five fields the
query itself occurs case-insensitively. -/
def claimSearch (query : String) (students : List Student) : List Student :=
  if pyStrip query = "" then students
  else students.filter (matchesQuery (pyLower query))

/-! ## Helper lemmas on the collection operations -/

theorem replaceFirst_eq_none_of_not_found {s : List Student} {tid : String}
    (nst : Student) (h : get_student_by_id s tid = none) :
    replaceFirst s tid nst = none := by
  induction s with
  | nil => rfl
  | cons a rest ih =>
    by_cases ha : a.id = tid
    · exact absurd h (by simp [get_student_by_id, List.find?_cons, ha])
    · have hrest : get_student_by_id rest tid = none := by
        simpa [get_student_by_id, List.find?_cons, ha] using h
      simp [replaceFirst, ha, ih hrest]

theorem removeFirst_eq_none_of_not_found {s : List Student} {tid : String}
    (h : get_student_by_id s tid = none) :
    removeFirst s tid = none := by
  induction s with
  | nil => rfl
  | cons a rest ih =>
    by_cases ha : a.id = tid
    · exact absurd h (by simp [get_student_by_id, List.find?_cons, ha])
    · have hrest : get_student_by_id rest tid = none := by
        simpa [get_student_by_id, List.find?_cons, ha] using h
      simp [removeFirst, ha, ih hrest]

theorem mem_of_mem_replaceFirst {s s' : List Student} {tid : String}
    {nst x : Student} (h : replaceFirst s tid nst = some s') (hx : x ∈ s') :
    x = nst ∨ x ∈ s := by
  induction s generalizing s' with
  | nil => simp [replaceFirst] at h
  | cons a rest ih =>
    by_cases ha : a.id = tid
    · simp only [replaceFirst, if_pos ha, Option.some.injEq] at h
      subst h
      cases hx with
      | head => exact Or.inl rfl
      | tail _ hx => exact Or.inr (List.mem_cons_of_mem _ hx)
    · simp only [replaceFirst, if_neg ha, Option.map_eq_some'] at h
      obtain ⟨r', hr', rfl⟩ := h
      cases hx with
      | head => exact Or.inr (List.mem_cons_self _ _)
      | tail _ hx =>
        rcases ih hr' hx with h' | h'
        · exact Or.inl h'
        · exact Or.inr (List.mem_cons_of_mem _ h')

theorem removeFirst_sublist {s s' : List Student} {tid : String}
    (h : removeFirst s tid = some s') : s'.Sublist s := by
  induction s generalizing s' with
  | nil => simp [removeFirst] at h
  | cons a rest ih =>
    by_cases ha : a.id = tid
    · simp only [removeFirst, if_pos ha, Option.some.injEq] at h
      subst h
      exact List.sublist_cons_self _ _
    · simp only [removeFirst, if_neg ha, Option.map_eq_some'] at h
      obtain ⟨r', hr', rfl⟩ := h
      exact List.Sublist.cons₂ _ (ih hr')

/-! ## Claim C6 — failed mutations leave the collection unchanged -/

/-- C6: when a mutation's precondition is violated — `add_student` with
an id already in the collection, or `update_student`/`delete_student`
with an absent id — the operation returns `False`, emits nothing, and
leaves the collection exactly unchanged (same entries in the same
order); in particular the `get_all_students` length is unchanged after
a failed add. -/
theorem claim6_failed_mutation_unchanged
    (k : Bool) (s : List Student) (st nst : Student) (tid : String) :
    ((get_student_by_id s st.id).isSome = true →
      add_student k s st = (false, s, [])
      ∧ (get_all_students (add_student k s st).2.1).length
          = (get_all_students s).length)
    ∧ (get_student_by_id s tid = none →
      update_student k s tid nst = (false, s, [])
      ∧ delete_student k s tid = (false, s, [])) := by
  constructor
  · intro h
    constructor
    · simp [add_student, h]
    · simp [add_student, h, get_all_students]
  · intro h
    constructor
    · simp [update_student, replaceFirst_eq_none_of_not_found nst h]
    · simp [delete_student, removeFirst_eq_none_of_not_found h]

theorem claim6_witness :
    (add_student true [⟨"SV001", "A", "15/03/1995", "B", "C", "D"⟩]
        ⟨"SV001", "E", "22/07/1996", "F", "G", "H"⟩
      = (false, [⟨"SV001", "A", "15/03/1995", "B", "C", "D"⟩], []))
    ∧ (update_student true [⟨"SV001", "A", "15/03/1995", "B", "C", "D"⟩]
        "SV999" ⟨"SV002", "E", "22/07/1996", "F", "G", "H"⟩
      = (false, [⟨"SV001", "A", "15/03/1995", "B", "C", "D"⟩], []))
    ∧ (delete_student true [⟨"SV001", "A", "15/03/1995", "B", "C", "D"⟩]
        "SV999"
      = (false, [⟨"SV001", "A", "15/03/1995", "B", "C", "D"⟩], [])) := by
  have h := claim6_failed_mutation_unchanged true
    [⟨"SV001", "A", "15/03/1995", "B", "C", "D"⟩]
    ⟨"SV001", "E", "22/07/1996", "F", "G", "H"⟩
    ⟨"SV002", "E", "22/07/1996", "F", "G", "H"⟩ "SV999"
  exact ⟨(h.1 (by decide)).1, (h.2 (by decide)).1, (h.2 (by decide)).2⟩

/-! ## Claim C8 — events emitted by mutations -/

/-- C8: every successful mutation emits exactly the specific event
(`student_added` / `student_updated` / `student_deleted`) followed by
exactly one generic `students_changed` event, in that order, and a
failed mutation emits no events. -/
theorem claim8_mutation_events
    (k : Bool) (s : List Student) (st nst : Student) (tid : String) :
    (add_student k s st).2.2
      = (if (add_student k s st).1
         then [Event.student_added st.id, Event.students_changed] else [])
    ∧ (update_student k s tid nst).2.2
      = (if (update_student k s tid nst).1
         then [Event.student_updated tid, Event.students_changed] else [])
    ∧ (delete_student k s tid).2.2
      = (if (delete_student k s tid).1
         then [Event.student_deleted tid, Event.students_changed] else []) := by
  refine ⟨?_, ?_, ?_⟩
  · by_cases h : (get_student_by_id s st.id).isSome <;> simp [add_student, h]
  · cases h : replaceFirst s tid nst <;> simp [update_student, h]
  · cases h : removeFirst s tid <;> simp [delete_student, h]

/-! ## Claim C2 — mutations do not surface a failed write -/

/-- C2 counterexample: with the backing-document write failing
(`saveOk = false`), `add_student` still returns `True` — the write
failure is not surfaced as a failure result of the mutation — while the
in-memory collection keeps the applied mutation. -/
theorem claim2_counterexample :
    (add_student false [] ⟨"SV001", "A", "15/03/1995", "B", "C", "D"⟩).1 = true
    ∧ (add_student false [] ⟨"SV001", "A", "15/03/1995", "B", "C", "D"⟩).2.1
        = [⟨"SV001", "A", "15/03/1995", "B", "C", "D"⟩] := by
  constructor <;> decide

/-- C2 amended: for every mutation the returned result, the resulting
collection and the emitted events are independent of whether the write
of the backing document succeeds — only `save_data` itself reports the
failure, which the mutations discard — and in particular a mutation
whose precondition holds returns success and keeps the applied mutation
in memory even when the write fails. -/
theorem claim2_failed_write_not_surfaced
    (k : Bool) (s : List Student) (st nst : Student) (tid : String) :
    add_student k s st = add_student true s st
    ∧ update_student k s tid nst = update_student true s tid nst
    ∧ delete_student k s tid = delete_student true s tid
    ∧ ((add_student false s st).1 = true ↔ get_student_by_id s st.id = none)
    ∧ (get_student_by_id s st.id = none →
        (add_student false s st).2.1 = s ++ [st]) := by
  refine ⟨rfl, rfl, rfl, ?_, ?_⟩
  · constructor
    · intro h
      by_cases hf : (get_student_by_id s st.id).isSome
      · simp [add_student, hf] at h
      · exact Option.eq_none_iff_forall_not_mem.mpr
          (by simpa [Option.isSome_iff_exists] using hf)
    · intro h
      simp [add_student, h]
  · intro h
    simp [add_student, h]

theorem claim2_witness :
    (add_student false [] ⟨"SV002", "A", "15/03/1995", "B", "C", "D"⟩).1 = true
    ∧ (add_student false [] ⟨"SV002", "A", "15/03/1995", "B", "C", "D"⟩).2.1
        = [] ++ [⟨"SV002", "A", "15/03/1995", "B", "C", "D"⟩] := by
  have h := claim2_failed_write_not_surfaced false []
    ⟨"SV002", "A", "15/03/1995", "B", "C", "D"⟩
    ⟨"SV002", "A", "15/03/1995", "B", "C", "D"⟩ "SV002"
  exact ⟨h.2.2.2.1.mpr (by decide), h.2.2.2.2 (by decide)⟩

/-! ## Claim C1 — id uniqueness across the store operations -/

theorem replaceFirst_nodup {s s' : List Student} {tid : String}
    {nst : Student} (hu : uniqueIds s)
    (hcond : nst.id = tid ∨ ∀ x ∈ s, x.id ≠ nst.id)
    (h : replaceFirst s tid nst = some s') : uniqueIds s' := by
  induction s generalizing s' with
  | nil => simp [replaceFirst] at h
  | cons a rest ih =>
    simp only [uniqueIds, List.map_cons, List.nodup_cons] at hu
    by_cases ha : a.id = tid
    · simp only [replaceFirst, if_pos ha, Option.some.injEq] at h
      subst h
      simp only [uniqueIds, List.map_cons, List.nodup_cons]
      refine ⟨?_, hu.2⟩
      rcases hcond with hc | hc
      · rw [hc, ← ha]; exact hu.1
      · intro hmem
        obtain ⟨x, hx, hxa⟩ := List.mem_map.mp hmem
        exact hc x (List.mem_cons_of_mem _ hx) hxa
    · simp only [replaceFirst, if_neg ha, Option.map_eq_some'] at h
      obtain ⟨r', hr', rfl⟩ := h
      have hcond' : nst.id = tid ∨ ∀ x ∈ rest, x.id ≠ nst.id := by
        rcases hcond with hc | hc
        · exact Or.inl hc
        · exact Or.inr fun x hx => hc x (List.mem_cons_of_mem _ hx)
      have hr'nodup : uniqueIds r' := ih hu.2 hcond' hr'
      simp only [uniqueIds, List.map_cons, List.nodup_cons]
      refine ⟨?_, hr'nodup⟩
      intro hmem
      obtain ⟨x, hx, hxa⟩ := List.mem_map.mp hmem
      rcases mem_of_mem_replaceFirst hr' hx with rfl | hxrest
      · rcases hcond with hc | hc
        · exact ha (hxa ▸ hc)
        · exact hc a (List.mem_cons_self _ _) hxa.symm
      · exact hu.1 (List.mem_map.mpr ⟨x, hxrest, hxa⟩)

/-- C1 counterexample: starting from the state initialization creates
(the seed collection, whose ids are unique), updating `"SV001"` with a
fully valid student whose id `"SV002"` already belongs to another entry
yields a collection with two entries of id `"SV002"`: id uniqueness is
not an invariant of `update_student`.  The replacement student passes
model validation (`from_dict` accepts it). -/
theorem claim1_counterexample :
    Student.from_dict ⟨"SV002", "An", "15/03/1995", "B", "C", "D"⟩
      = some ⟨"SV002", "An", "15/03/1995", "B", "C", "D"⟩
    ∧ ¬ uniqueIds (update_student true (load_data .missingFile).2 "SV001"
        ⟨"SV002", "An", "15/03/1995", "B", "C", "D"⟩).2.1 := by
  constructor
  · decide
  · decide

/-- C1 amended: id uniqueness is preserved by `add_student` and
`delete_student`, and holds for the seed collection that initialization
falls back to; `update_student` preserves it only under the proviso
that the replacement's id equals the updated id or does not occur in
the collection — replacing an entry with a student whose id already
belongs to a different entry breaks it (see the counterexample). -/
theorem claim1_unique_ids_preserved :
    (∀ (k : Bool) (s : List Student) (st : Student) (tid : String)
        (nst : Student), uniqueIds s →
      uniqueIds (add_student k s st).2.1
      ∧ uniqueIds (delete_student k s tid).2.1
      ∧ ((nst.id = tid ∨ ∀ x ∈ s, x.id ≠ nst.id) →
          uniqueIds (update_student k s tid nst).2.1))
    ∧ uniqueIds (load_data .missingFile).2 := by
  constructor
  · intro k s st tid nst hu
    refine ⟨?_, ?_, ?_⟩
    · by_cases h : (get_student_by_id s st.id).isSome
      · simpa [add_student, h] using hu
      · have hnone : get_student_by_id s st.id = none := by
          cases hfind : get_student_by_id s st.id with
          | none => rfl
          | some x => simp [hfind] at h
        have hfresh : ∀ x ∈ s, ¬(x.id = st.id) := by
          intro x hx
          have := List.find?_eq_none.mp hnone x hx
          simpa using this
        rw [show add_student k s st
            = (true, s ++ [st],
               [Event.student_added st.id, Event.students_changed]) from by
          simp [add_student, hnone]]
        simp only [uniqueIds, List.map_append, List.map_cons, List.map_nil]
        rw [List.nodup_append]
        refine ⟨hu, List.nodup_singleton _, ?_⟩
        intro a ha hb
        simp only [List.mem_singleton] at hb
        subst hb
        obtain ⟨x, hx, hxa⟩ := List.mem_map.mp ha
        exact hfresh x hx hxa
    · cases h : removeFirst s tid with
      | none => simpa [delete_student, h] using hu
      | some s' =>
        simp only [delete_student, h]
        exact ((removeFirst_sublist h).map Student.id).nodup hu
    · intro hcond
      cases h : replaceFirst s tid nst with
      | none => simpa [update_student, h] using hu
      | some s' =>
        simp only [update_student, h]
        exact replaceFirst_nodup hu hcond h
  · decide

theorem claim1_witness :
    uniqueIds (add_student true (load_data .missingFile).2
      ⟨"SV011", "A", "15/03/1995", "B", "C", "D"⟩).2.1 :=
  (claim1_unique_ids_preserved.1 true (load_data .missingFile).2
    ⟨"SV011", "A", "15/03/1995", "B", "C", "D"⟩ "SV001"
    ⟨"SV011", "A", "15/03/1995", "B", "C", "D"⟩
    claim1_unique_ids_preserved.2).1

/-! ## Claim C7 — search semantics -/

theorem foldl_append_filter (p : Student → Bool) (l : List Student) :
    ∀ acc : List Student,
      l.foldl (fun r x => if p x then r ++ [x] else r) acc
        = acc ++ l.filter p := by
  induction l with
  | nil => intro acc; simp
  | cons a rest ih =>
    intro acc
    by_cases hp : p a
    · simp [List.foldl_cons, hp, ih, List.filter_cons]
    · simp [List.foldl_cons, hp, ih, List.filter_cons]

/-- C7 counterexample: for the query `" a"` (leading whitespace), the
code strips the query before matching, so a student whose name contains
`"a"` but not `" a"` is returned although the query itself occurs in
none of the five fields; the claim's match on the unstripped query
returns the empty list. -/
theorem claim7_counterexample :
    search_students " a" [⟨"SV9", "Ba", "X", "Y", "Z", "W"⟩]
        = [⟨"SV9", "Ba", "X", "Y", "Z", "W"⟩]
    ∧ claimSearch " a" [⟨"SV9", "Ba", "X", "Y", "Z", "W"⟩] = [] := by
  constructor <;> decide

/-- C7 amended: if the query is empty or whitespace-only, search returns
the same sequence as `get_all_students`; otherwise it returns exactly
the students for which the stripped query occurs case-insensitively as
a substring of id, name, hometown, parish, or diocese (OR across the
five fields) — a filter of the collection, hence preserving collection
order, with a no-match result the empty sequence rather than an error;
search never mutates the collection. -/
theorem claim7_search_characterization (query : String)
    (students : List Student) :
    search_students query students
      = (if pyStrip query = "" then get_all_students students
         else students.filter (matchesQuery (pyStrip (pyLower query)))) := by
  by_cases hq : pyStrip query = ""
  · simp [search_students, hq]
  · simp only [search_students, hq, if_neg, if_false]
    rw [foldl_append_filter]
    simp only [List.nil_append]
    apply List.filter_congr
    intro st _
    simp [matchesQuery, fieldsOf, Bool.or_assoc]

theorem claim7_witness :
    search_students " a" sample_students
      = (if pyStrip " a" = "" then get_all_students sample_students
         else sample_students.filter
            (matchesQuery (pyStrip (pyLower " a")))) :=
  claim7_search_characterization " a" sample_students

/-! ## Claim C3 — birth-date validation -/

theorem isDigit_iff {c : Char} :
    c.isDigit = true ↔ 48 ≤ c.toNat ∧ c.toNat ≤ 57 := by
  simp [Char.isDigit, UInt32.le_def, BitVec.le_def, Char.toNat, UInt32.toNat]

theorem digitChar_isDigit (n : Nat) : (digitChar n).isDigit = true := by
  unfold digitChar
  split <;> decide

theorem digitVal_digitChar {n : Nat} (h : n < 10) :
    digitVal (digitChar n) = n := by
  interval_cases n <;> decide

theorem digitsToNat_append_singleton (l : List Char) (c : Char) :
    digitsToNat (l ++ [c]) = digitsToNat l * 10 + digitVal c := by
  simp [digitsToNat, List.foldl_append]

theorem natDecimalAux_spec :
    ∀ (fuel n : Nat), n < fuel →
      natDecimalAux fuel n ≠ []
      ∧ (natDecimalAux fuel n).all Char.isDigit = true
      ∧ digitsToNat (natDecimalAux fuel n) = n := by
  intro fuel
  induction fuel with
  | zero => intro n h; omega
  | succ fuel ih =>
    intro n h
    by_cases h10 : n < 10
    · simp only [natDecimalAux, if_pos h10]
      refine ⟨by simp, by simp [digitChar_isDigit], ?_⟩
      simp [digitsToNat, List.foldl, digitVal_digitChar h10]
    · have hdiv : n / 10 < fuel := by
        have := Nat.div_lt_self (by omega : 0 < n) (by omega : 1 < 10)
        omega
      obtain ⟨hne, hdig, hval⟩ := ih (n / 10) hdiv
      simp only [natDecimalAux, if_neg h10]
      refine ⟨by simp, ?_, ?_⟩
      · simp [List.all_append, hdig, digitChar_isDigit]
      · rw [digitsToNat_append_singleton, hval,
          digitVal_digitChar (Nat.mod_lt _ (by omega))]
        omega

theorem natDecimal_spec (n : Nat) :
    natDecimal n ≠ []
    ∧ (natDecimal n).all Char.isDigit = true
    ∧ digitsToNat (natDecimal n) = n :=
  natDecimalAux_spec (n + 1) n (by omega)

theorem digitsToNat_replicate_zero_append :
    ∀ (k : Nat) (l : List Char),
      digitsToNat (List.replicate k '0' ++ l) = digitsToNat l := by
  intro k
  induction k with
  | zero => intro l; simp
  | succ k ih =>
    intro l
    rw [List.replicate_succ, List.cons_append]
    show List.foldl (fun a c => a * 10 + digitVal c) 0 _ = _
    rw [List.foldl_cons]
    exact ih l

theorem intDigitsOk_of_digits :
    ∀ {l : List Char}, l ≠ [] → l.all Char.isDigit = true →
      intDigitsOk l = true := by
  intro l
  induction l with
  | nil => intro h; exact absurd rfl h
  | cons c t ih =>
    intro _ hdig
    rw [List.all_cons, Bool.and_eq_true] at hdig
    cases t with
    | nil => simpa [intDigitsOk] using hdig.1
    | cons c' rest =>
      have hc' : c'.isDigit = true := by
        have := hdig.2
        rw [List.all_cons, Bool.and_eq_true] at this
        exact this.1
      have hne : c' ≠ '_' := by
        intro he
        rw [he] at hc'
        exact absurd hc' (by decide)
      show (if c' = '_' then c.isDigit && intDigitsOk rest
            else c.isDigit && intDigitsOk (c' :: rest)) = true
      rw [if_neg hne, Bool.and_eq_true]
      exact ⟨hdig.1, ih (by simp) hdig.2⟩

theorem filter_underscore_of_digits {l : List Char}
    (h : l.all Char.isDigit = true) :
    l.filter (fun c => c ≠ '_') = l := by
  apply List.filter_eq_self.mpr
  intro a ha
  rw [List.all_eq_true] at h
  have hd := h a ha
  simp only [ne_eq, decide_not, Bool.not_eq_true', decide_eq_false_iff_not]
  intro he
  rw [he] at hd
  exact absurd hd (by decide)

theorem parseUDigits_of_digits {l : List Char} (hne : l ≠ [])
    (h : l.all Char.isDigit = true) :
    parseUDigits l = some (digitsToNat l) := by
  unfold parseUDigits
  rw [if_pos (intDigitsOk_of_digits hne h), filter_underscore_of_digits h]

theorem isPySpace_eq_false_of_digit {c : Char} (h : c.isDigit = true) :
    isPySpace c = false := by
  cases hsp : isPySpace c
  · rfl
  · exfalso
    obtain ⟨h1, h2⟩ := isDigit_iff.mp h
    unfold isPySpace at hsp
    simp only [Bool.or_eq_true, decide_eq_true_eq] at hsp
    rcases hsp with ((((he | he) | he) | he) | he) | he <;> subst he <;>
      revert h1 <;> decide

theorem dropWhile_isPySpace_of_digits {l : List Char}
    (h : l.all Char.isDigit = true) : l.dropWhile isPySpace = l := by
  cases l with
  | nil => rfl
  | cons a t =>
    have ha : a.isDigit = true := by
      rw [List.all_cons, Bool.and_eq_true] at h
      exact h.1
    rw [List.dropWhile_cons, isPySpace_eq_false_of_digit ha]
    simp

theorem pyStripChars_of_digits {l : List Char}
    (h : l.all Char.isDigit = true) : pyStripChars l = l := by
  unfold pyStripChars
  rw [dropWhile_isPySpace_of_digits h,
    dropWhile_isPySpace_of_digits (by simpa using h), List.reverse_reverse]

theorem pyInt_of_digits {l : List Char} (hne : l ≠ [])
    (h : l.all Char.isDigit = true) :
    pyInt? (String.mk l) = some (Int.ofNat (digitsToNat l)) := by
  have htl : (String.mk l).toList = l := rfl
  cases l with
  | nil => exact absurd rfl hne
  | cons c rest =>
    have hc : c.isDigit = true := by
      rw [List.all_cons, Bool.and_eq_true] at h
      exact h.1
    obtain ⟨h1, h2⟩ := isDigit_iff.mp hc
    have hplus : c ≠ '+' := by
      intro he; subst he; revert h1; decide
    have hminus : c ≠ '-' := by
      intro he; subst he; revert h1; decide
    show (match pyStripChars (c :: rest) with
      | [] => none
      | c :: rest =>
        if c = '+' then (parseUDigits rest).map Int.ofNat
        else if c = '-' then (parseUDigits rest).map (fun n => -(n : Int))
        else (parseUDigits (c :: rest)).map Int.ofNat) = some (Int.ofNat (digitsToNat (c :: rest)))
    rw [pyStripChars_of_digits h]
    simp only [if_neg hplus, if_neg hminus]
    rw [parseUDigits_of_digits (by simp) h]
    rfl

theorem fmt03d_pos_spec {v : Int} (h : 1 ≤ v) :
    ∃ l : List Char, fmt03d v = String.mk l
      ∧ l ≠ [] ∧ l.all Char.isDigit = true
      ∧ digitsToNat l = v.toNat := by
  have hnn : ¬ v < 0 := by omega
  obtain ⟨hne, hdig, hval⟩ := natDecimal_spec v.natAbs
  refine ⟨List.replicate (3 - (natDecimal v.natAbs).length) '0'
      ++ natDecimal v.natAbs, ?_, ?_, ?_, ?_⟩
  · unfold fmt03d
    rw [if_neg hnn, if_neg hnn]
    simp
  · simp [hne]
  · rw [List.all_append, Bool.and_eq_true]
    exact ⟨by simp, hdig⟩
  · rw [digitsToNat_replicate_zero_append, hval]
    omega

theorem le_foldl_nextIdStep :
    ∀ (l : List Student) (acc : Int), acc ≤ l.foldl nextIdStep acc := by
  intro l
  induction l with
  | nil => intro acc; exact le_refl _
  | cons a rest ih =>
    intro acc
    refine le_trans ?_ (ih (nextIdStep acc a))
    unfold nextIdStep
    cases suffixInt? a
    · exact le_refl _
    · exact le_max_left _ _

theorem foldl_nextIdStep_ub :
    ∀ (l : List Student) (acc : Int) (st : Student) (v : Int),
      st ∈ l → suffixInt? st = some v → v ≤ l.foldl nextIdStep acc := by
  intro l
  induction l with
  | nil => intro acc st v hmem; exact absurd hmem (by simp)
  | cons a rest ih =>
    intro acc st v hmem hv
    cases hmem with
    | head =>
      rw [List.foldl_cons]
      refine le_trans ?_ (le_foldl_nextIdStep rest (nextIdStep acc a))
      unfold nextIdStep
      rw [hv]
      exact le_max_right _ _
    | tail _ hmem => exact ih _ st v hmem hv

theorem foldl_nextIdStep_attained :
    ∀ (l : List Student) (acc : Int),
      l.foldl nextIdStep acc = acc
      ∨ ∃ st ∈ l, suffixInt? st = some (l.foldl nextIdStep acc) := by
  intro l
  induction l with
  | nil => intro acc; exact Or.inl rfl
  | cons a rest ih =>
    intro acc
    rw [List.foldl_cons]
    rcases ih (nextIdStep acc a) with hl | ⟨st, hmem, hst⟩
    · rw [hl]
      cases hsuf : suffixInt? a with
      | none => simp [nextIdStep, hsuf]
      | some v =>
        by_cases hle : v ≤ acc
        · left
          simp [nextIdStep, hsuf]
          omega
        · right
          refine ⟨a, List.mem_cons_self _ _, ?_⟩
          rw [hsuf]
          simp [nextIdStep, hsuf]
          omega
    · exact Or.inr ⟨st, List.mem_cons_of_mem _ hmem, hst⟩

/-- C5 counterexample: a collection holding the single (valid,
constructible) id `"SV+9"` — whose suffix is not a digit string, so
the claim says it is ignored and `"SV001"` is returned — actually
yields `"SV010"`: Python `int` also accepts a sign, so the suffix
`"+9"` contributes 9 to the running maximum. -/
theorem claim5_counterexample :
    generate_next_id [⟨"SV+9", "A", "15/03/1995", "B", "C", "D"⟩] = "SV010"
    ∧ claimNextId [⟨"SV+9", "A", "15/03/1995", "B", "C", "D"⟩] = "SV001"
    ∧ Student.from_dict ⟨"SV+9", "A", "15/03/1995", "B", "C", "D"⟩
        = some ⟨"SV+9", "A", "15/03/1995", "B", "C", "D"⟩ := by
  refine ⟨by decide, by decide, by decide⟩

/-- C5 amended: `generate_next_id` returns `"SV"` followed by `m + 1`
zero-padded to 3 digits, where `m ≥ 0` is the least upper bound of the
values of the id suffixes after `"SV"` that Python `int` accepts —
digit strings, but also signed/whitespace/underscore variants — and
`m = 0` when the collection is empty or no suffix parses (suffixes
parsing to non-positive values are absorbed by the maximum's starting
value 0). -/
theorem claim5_next_id_characterization (students : List Student) :
    ∃ m : Int, 0 ≤ m
      ∧ (∀ st ∈ students, ∀ v : Int, suffixInt? st = some v → v ≤ m)
      ∧ (m = 0 ∨ ∃ st ∈ students, suffixInt? st = some m)
      ∧ generate_next_id students = "SV" ++ fmt03d (m + 1) := by
  refine ⟨students.foldl nextIdStep 0, le_foldl_nextIdStep students 0,
    fun st hmem v hv => foldl_nextIdStep_ub students 0 st v hmem hv,
    foldl_nextIdStep_attained students 0, ?_⟩
  unfold generate_next_id
  cases students with
  | nil => decide
  | cons a rest => rfl

theorem claim5_witness :
    (∃ m : Int, 0 ≤ m
      ∧ (∀ st ∈ ([⟨"SV001", "A", "15/03/1995", "B", "C", "D"⟩,
          ⟨"SV003", "A", "15/03/1995", "B", "C", "D"⟩,
          ⟨"SV010", "A", "15/03/1995", "B", "C", "D"⟩] : List Student),
          ∀ v : Int, suffixInt? st = some v → v ≤ m)
      ∧ (m = 0 ∨ ∃ st ∈ ([⟨"SV001", "A", "15/03/1995", "B", "C", "D"⟩,
          ⟨"SV003", "A", "15/03/1995", "B", "C", "D"⟩,
          ⟨"SV010", "A", "15/03/1995", "B", "C", "D"⟩] : List Student),
          suffixInt? st = some m)
      ∧ generate_next_id [⟨"SV001", "A", "15/03/1995", "B", "C", "D"⟩,
          ⟨"SV003", "A", "15/03/1995", "B", "C", "D"⟩,
          ⟨"SV010", "A", "15/03/1995", "B", "C", "D"⟩] = "SV" ++ fmt03d (m + 1))
    ∧ generate_next_id [⟨"SV001", "A", "15/03/1995", "B", "C", "D"⟩,
        ⟨"SV003", "A", "15/03/1995", "B", "C", "D"⟩,
        ⟨"SV010", "A", "15/03/1995", "B", "C", "D"⟩] = "SV011" :=
  ⟨claim5_next_id_characterization _, by decide⟩

/-- C10: for every collection, the id returned by `generate_next_id` is
distinct from the id of every student currently in the collection: a
suffix equal to the formatted maximum-plus-one would itself parse to a
value exceeding the maximum. -/
theorem claim10_generated_id_fresh (students : List Student) (st : Student)
    (hmem : st ∈ students) : st.id ≠ generate_next_id students := by
  intro heq
  have hne : students.isEmpty = false := by
    cases students
    · exact absurd hmem (by simp)
    · rfl
  unfold generate_next_id at heq
  rw [if_neg (by simp [hne])] at heq
  have hm0 : (0 : Int) ≤ students.foldl nextIdStep 0 :=
    le_foldl_nextIdStep students 0
  obtain ⟨l, hfmt, hlne, hdig, hval⟩ :=
    fmt03d_pos_spec (by omega : (1 : Int) ≤ students.foldl nextIdStep 0 + 1)
  rw [hfmt] at heq
  have hdata : st.id.toList = 'S' :: 'V' :: l := by
    rw [heq]
    rfl
  have hsuf : suffixInt? st
      = some (Int.ofNat (digitsToNat l)) := by
    unfold suffixInt?
    rw [hdata]
    rw [if_pos (show startsWithSV ('S' :: 'V' :: l) = true from rfl)]
    show pyInt? (String.mk l) = _
    exact pyInt_of_digits hlne hdig
  have hub := foldl_nextIdStep_ub students 0 st _ hmem hsuf
  rw [hval] at hub
  have hcast : ((students.foldl nextIdStep 0 + 1).toNat : Int)
      = students.foldl nextIdStep 0 + 1 := Int.toNat_of_nonneg (by omega)
  rw [show Int.ofNat ((students.foldl nextIdStep 0 + 1).toNat)
      = ((students.foldl nextIdStep 0 + 1).toNat : Int) from rfl, hcast] at hub
  omega

theorem claim10_witness :
    (⟨"SV001", "A", "15/03/1995", "B", "C", "D"⟩ : Student).id
      ≠ generate_next_id [⟨"SV001", "A", "15/03/1995", "B", "C", "D"⟩] :=
  claim10_generated_id_fresh _ _ (List.mem_singleton.mpr rfl)

/-! ## Claim C9 — serialize/deserialize round-trip -/

theorem char_toNat_ofNat {n : Nat} (h : n < 55296) :
    (Char.ofNat n).toNat = n := by
  unfold Char.ofNat
  rw [dif_pos (Or.inl h : Nat.isValidChar n)]
  rfl

theorem toUpper_toUpper (c : Char) : c.toUpper.toUpper = c.toUpper := by
  by_cases h : c.toNat ≥ 97 ∧ c.toNat ≤ 122
  · have h1 : c.toUpper = Char.ofNat (c.toNat - 32) := by
      unfold Char.toUpper
      rw [if_pos h]
    have h2 : (Char.ofNat (c.toNat - 32)).toNat = c.toNat - 32 :=
      char_toNat_ofNat (by omega)
    rw [h1]
    unfold Char.toUpper
    rw [if_neg (by omega : ¬((Char.ofNat (c.toNat - 32)).toNat ≥ 97
        ∧ (Char.ofNat (c.toNat - 32)).toNat ≤ 122))]
  · have h1 : c.toUpper = c := by
      unfold Char.toUpper
      rw [if_neg h]
    rw [h1, h1]

theorem pyUpper_toList (s : String) :
    (pyUpper s).toList = s.toList.flatMap charUpper := rfl

theorem one_le_length_charUpper (c : Char) : 1 ≤ (charUpper c).length := by
  unfold charUpper
  split <;> simp

theorem length_le_length_pyUpper (s : String) :
    s.length ≤ (pyUpper s).length := by
  show s.toList.length ≤ (s.toList.flatMap charUpper).length
  induction s.toList with
  | nil => simp
  | cons a t ih =>
    have h1 := one_le_length_charUpper a
    simp only [List.flatMap_cons, List.length_append, List.length_cons]
    omega

theorem eq_eszett_of_toUpper {c : Char} (h : Char.toUpper c = 'ß') :
    c = 'ß' := by
  by_cases hr : c.toNat ≥ 97 ∧ c.toNat ≤ 122
  · exfalso
    have h1 : c.toUpper = Char.ofNat (c.toNat - 32) := by
      unfold Char.toUpper
      rw [if_pos hr]
    have h2 : (Char.ofNat (c.toNat - 32)).toNat = c.toNat - 32 :=
      char_toNat_ofNat (by omega)
    have h3 : (Char.ofNat (c.toNat - 32)).toNat = ('ß' : Char).toNat := by
      rw [← h1, h]
    have h4 : ('ß' : Char).toNat = 223 := by decide
    omega
  · have h1 : c.toUpper = c := by
      unfold Char.toUpper
      rw [if_neg hr]
    rw [← h1]
    exact h

theorem charUpper_flatMap_charUpper (c : Char) :
    (charUpper c).flatMap charUpper = charUpper c := by
  by_cases hesz : c = 'ß'
  · subst hesz
    decide
  · have h1 : charUpper c = [Char.toUpper c] := by
      unfold charUpper
      rw [if_neg hesz]
    have h2 : Char.toUpper c ≠ 'ß' := fun he => hesz (eq_eszett_of_toUpper he)
    rw [h1]
    simp only [List.flatMap_cons, List.flatMap_nil, List.append_nil]
    unfold charUpper
    rw [if_neg h2, toUpper_toUpper]

theorem pyUpper_idem (s : String) : pyUpper (pyUpper s) = pyUpper s := by
  show String.mk ((s.toList.flatMap charUpper).flatMap charUpper)
      = String.mk (s.toList.flatMap charUpper)
  congr 1
  induction s.toList with
  | nil => rfl
  | cons a t ih =>
    simp only [List.flatMap_cons, List.flatMap_append,
      charUpper_flatMap_charUpper, ih]

theorem startsWithSV_pyUpper {s : String}
    (h : startsWithSV s.toList = true) :
    startsWithSV (pyUpper s).toList = true := by
  rcases hl : s.toList with _ | ⟨c, _ | ⟨c', t⟩⟩ <;> rw [hl] at h
  · exact Bool.noConfusion h
  · exact Bool.noConfusion (show false = true from h)
  · have h' : (decide (c = 'S') && decide (c' = 'V')) = true := h
    rw [Bool.and_eq_true, decide_eq_true_eq, decide_eq_true_eq] at h'
    obtain ⟨rfl, rfl⟩ := h'
    rw [pyUpper_toList, hl]
    show (decide (Char.toUpper 'S' = 'S') && decide (Char.toUpper 'V' = 'V')) = true
    decide

/-- C9 counterexample: the field set with id `"SVßßßßßßßß"` (10
characters, so it passes max_length) is accepted by construction, which
stores the upper-cased 18-character id `"SV" + 16 × 'S'` — pydantic
runs the field validator after the length constraint and does not
re-check its output.  Deserializing the serialized Student then fails
the max_length-10 constraint, so the round trip breaks. -/
theorem claim9_counterexample :
    Student.construct ⟨"SVßßßßßßßß", "An", "15/03/1995", "B", "C", "D"⟩
        = some ⟨"SVSSSSSSSSSSSSSSSS", "An", "15/03/1995", "B", "C", "D"⟩
    ∧ Student.from_dict (Student.to_dict
        ⟨"SVSSSSSSSSSSSSSSSS", "An", "15/03/1995", "B", "C", "D"⟩)
        = none := by
  constructor <;> decide

/-- C9 amended: for every field set accepted by construction whose
stored (upper-cased) id still satisfies the 10-character maximum — in
particular whenever upper-casing does not lengthen the id — serializing
the constructed Student (`to_dict`) and deserializing the result
(`from_dict`) yields the same Student: upper-casing is idempotent and
prefix-preserving, and every other field is stored verbatim.  When
upper-casing expands the id beyond 10 characters (Python `str.upper`
can lengthen, e.g. `'ß'` → `"SS"`), re-validation at deserialization
fails and the round trip breaks (see the counterexample). -/
theorem claim9_round_trip (f : StudentFields) (st : Student)
    (h : Student.construct f = some st) (hlen : st.id.length ≤ 10) :
    Student.from_dict (Student.to_dict st) = some st := by
  unfold Student.construct at h
  split at h
  case isFalse => exact absurd h (by simp)
  case isTrue hC =>
    cases hid : validate_student_id f.id with
    | none => rw [hid] at h; exact absurd h (by simp)
    | some uid =>
      rw [hid] at h
      have h' : (if validate_birth_date f.birth_date = true
          then some (⟨uid, f.name, f.birth_date, f.hometown, f.parish,
            f.diocese⟩ : Student) else none) = some st := h
      by_cases hbd : validate_birth_date f.birth_date = true
      · rw [if_pos hbd] at h'
        have hst := Option.some.inj h'
        subst hst
        unfold validate_student_id at hid
        by_cases hsv : startsWithSV f.id.toList = true
        · rw [if_pos hsv] at hid
          by_cases h3 : 3 ≤ f.id.length
          · rw [if_pos h3] at hid
            have huid := Option.some.inj hid
            subst huid
            obtain ⟨h1, h2, h3n, h4n, h5h, h6h, h7p, h8p, h9d, h10d⟩ := hC
            have hlen10 : (pyUpper f.id).length ≤ 10 := hlen
            unfold Student.from_dict Student.construct Student.to_dict
            rw [if_pos (show 1 ≤ (pyUpper f.id).length
                  ∧ (pyUpper f.id).length ≤ 10
                  ∧ 1 ≤ f.name.length ∧ f.name.length ≤ 100
                  ∧ 1 ≤ f.hometown.length ∧ f.hometown.length ≤ 100
                  ∧ 1 ≤ f.parish.length ∧ f.parish.length ≤ 100
                  ∧ 1 ≤ f.diocese.length ∧ f.diocese.length ≤ 100 from by
              refine ⟨?_, hlen10, h3n, h4n, h5h, h6h, h7p, h8p, h9d, h10d⟩
              exact le_trans h1 (length_le_length_pyUpper _))]
            have hval2 : validate_student_id (pyUpper f.id)
                = some (pyUpper f.id) := by
              unfold validate_student_id
              rw [if_pos (startsWithSV_pyUpper hsv),
                if_pos (le_trans h3 (length_le_length_pyUpper _)), pyUpper_idem]
            simp [hval2, hbd]
          · rw [if_neg h3] at hid
            exact absurd hid (by simp)
        · rw [if_neg hsv] at hid
          exact absurd hid (by simp)
      · rw [if_neg hbd] at h'
        exact absurd h' (by simp)

theorem claim9_witness :
    Student.construct ⟨"SVn01", "An", "15/03/1995", "B", "C", "D"⟩
        = some ⟨"SVN01", "An", "15/03/1995", "B", "C", "D"⟩
    ∧ Student.from_dict
        (Student.to_dict ⟨"SVN01", "An", "15/03/1995", "B", "C", "D"⟩)
        = some ⟨"SVN01", "An", "15/03/1995", "B", "C", "D"⟩ :=
  ⟨by decide, claim9_round_trip ⟨"SVn01", "An", "15/03/1995", "B", "C", "D"⟩
    ⟨"SVN01", "An", "15/03/1995", "B", "C", "D"⟩ (by decide) (by decide)⟩

/-! ## Claim C4 — initialization from the backing document -/

/-- C4 counterexample: a document that exists, is readable and parses
as the JSON object `{}` — which carries no `students` array — does not
fall back to the seed set: `data.get("students", [])` defaults to an
empty list, so the collection is set to empty, not to the 10 sample
students. -/
theorem claim4_counterexample :
    (load_data (.parsed (.jobj []))).2 = []
    ∧ (load_data (.parsed (.jobj []))).2 ≠ sample_students := by
  constructor <;> decide

/-- C4 amended: initialization populates the collection from the backing
document exactly when the document parses as a JSON object whose
`students` entry — defaulting to an empty array when the key is absent,
so a `students`-less object yields an empty collection rather than the
seed set — iterates into records that all pass model validation; in
every other case (document missing, unreadable, malformed, non-object
JSON, non-iterable `students` value, or an invalid record) the
collection is the fixed seed set of 10 sample students; the returned
flag is true exactly for a missing file or a successful read; in all
cases the collection is set. -/
theorem claim4_load_characterization (inp : LoadInput) :
    (load_data inp).2 = (docStudents? inp).getD sample_students
    ∧ (load_data inp).1 = (isMissingFile inp || (docStudents? inp).isSome) := by
  cases inp with
  | missingFile => exact ⟨rfl, rfl⟩
  | readError => exact ⟨rfl, rfl⟩
  | parseError => exact ⟨rfl, rfl⟩
  | parsed j =>
    cases j with
    | jobj fields =>
      cases hl : lookupLast "students" fields with
      | none =>
        simp [load_data, docStudents?, dictGet, isMissingFile, hl, pyIter,
          List.mapM.loop]
      | some v =>
        cases hit : pyIter v with
        | none =>
          simp [load_data, docStudents?, dictGet, isMissingFile, hl, hit]
        | some recs =>
          cases hm : recs.mapM Student.from_dictJ with
          | none =>
            have hm' : List.mapM.loop Student.from_dictJ recs [] = none := hm
            simp [load_data, docStudents?, dictGet, isMissingFile, hl, hit, hm']
          | some studs =>
            have hm' : List.mapM.loop Student.from_dictJ recs []
                = some studs := hm
            simp [load_data, docStudents?, dictGet, isMissingFile, hl, hit, hm']
    | jnull => exact ⟨rfl, rfl⟩
    | jbool b => exact ⟨rfl, rfl⟩
    | jnum n => exact ⟨rfl, rfl⟩
    | jstr s => exact ⟨rfl, rfl⟩
    | jarr l => exact ⟨rfl, rfl⟩

theorem claim4_witness :
    (load_data .missingFile).2
        = (docStudents? .missingFile).getD sample_students
    ∧ (load_data .missingFile).1
        = (isMissingFile .missingFile || (docStudents? .missingFile).isSome) :=
  claim4_load_characterization .missingFile

theorem claim8_witness :
    (add_student true [] ⟨"SV001", "A", "15/03/1995", "B", "C", "D"⟩).2.2
      = (if (add_student true [] ⟨"SV001", "A", "15/03/1995", "B", "C", "D"⟩).1
         then [Event.student_added
            (⟨"SV001", "A", "15/03/1995", "B", "C", "D"⟩ : Student).id,
            Event.students_changed] else [])
    ∧ (update_student true [] "SV001"
          ⟨"SV001", "A", "15/03/1995", "B", "C", "D"⟩).2.2
      = (if (update_student true [] "SV001"
            ⟨"SV001", "A", "15/03/1995", "B", "C", "D"⟩).1
         then [Event.student_updated "SV001", Event.students_changed] else [])
    ∧ (delete_student true [] "SV001").2.2
      = (if (delete_student true [] "SV001").1
         then [Event.student_deleted "SV001", Event.students_changed] else []) :=
  claim8_mutation_events true [] ⟨"SV001", "A", "15/03/1995", "B", "C", "D"⟩
    ⟨"SV001", "A", "15/03/1995", "B", "C", "D"⟩ "SV001"
